import Mathlib

/-!
Shallow embedding of the `datetime` C++ library (src/include/datetime.h,
src/src/datetime.cc) and proofs about its calendar arithmetic, duration
arithmetic, comparisons, formatting and parsing.

C `int` / `long` values are embedded as `Int`.  C division (`/`, `%`)
truncates toward zero and is embedded as `Int.tdiv` / `Int.tmod`; the
library's own `divmod`/`div`/`mod` helpers implement floor semantics on
top of it for positive divisors, exactly as the source does.  Failure
(`throw` in the source) is embedded as `Except Err` or `Option`.
-/

namespace DT

/-- Error taxonomy of the library: `std::out_of_range` is `range`,
the divide-by-zero `std::runtime_error` is `domainError`,
`std::invalid_argument` from parsing is `parseError`, and a violated
`assert` precondition (undefined behaviour in a release build) is
`assertFail`. -/
inductive Err where
  | range
  | domainError
  | parseError
  | assertFail
deriving DecidableEq

/-- The `timedelta` field triple `(days_, seconds_, microseconds_)`
(datetime.h:97-99). -/
structure Timedelta where
  days : Int
  seconds : Int
  microseconds : Int
deriving DecidableEq

/-- Embeds `divmod` (datetime.cc:59-72): quotient is the floor of `x / y`,
remainder in `[0, y)`.  The source asserts `y > 0`; every call site passes a
positive constant. -/
def divmod (x y : Int) : Int × Int :=
  let quo := Int.tdiv x y
  let r := x - quo * y
  if r < 0 then (quo - 1, r + y) else (quo, r)

/-- Embeds `div` (datetime.cc:74-86): floor division.  The source asserts
`y > 0`; every call site reached by the claims passes `kUsPerSecond`. -/
def div (x y : Int) : Int :=
  let quo := Int.tdiv x y
  let r := x - quo * y
  if r < 0 then quo - 1 else quo

/-- Embeds `mod` (datetime.cc:88-101): floor modulus.  The body requires
`assert(y > 0)`; a call with `y = 0` divides by zero and a call with `y < 0`
violates the assertion, so such calls are modeled as assertion failures. -/
def mod (x y : Int) : Except Err Int :=
  if 0 < y then
    let quo := Int.tdiv x y
    let r := x - quo * y
    .ok (if r < 0 then r + y else r)
  else .error .assertFail

theorem tmod_bounds (x y : Int) (hy : 0 < y) : -y < Int.tmod x y ∧ Int.tmod x y < y := by
  refine ⟨?_, Int.tmod_lt_of_pos x hy⟩
  rcases le_or_lt 0 x with hx | hx
  · have := Int.tmod_nonneg y hx
    omega
  · have hneg : Int.tmod (-x) y = -Int.tmod x y := by
      rw [Int.tmod_def, Int.tmod_def, Int.neg_tdiv]
      ring
    have h1 := Int.tmod_nonneg y (by omega : (0:Int) ≤ -x)
    have h2 := Int.tmod_lt_of_pos (-x) hy
    omega

theorem divmod_eq (x y : Int) (hy : 0 < y) : divmod x y = (x / y, x % y) := by
  unfold divmod
  simp only []
  have h1 := Int.tdiv_add_tmod x y
  obtain ⟨h4, h3⟩ := tmod_bounds x y hy
  have hr : x - Int.tdiv x y * y = Int.tmod x y := by linarith
  rw [hr]
  split
  · case _ h =>
    have hq : x / y = Int.tdiv x y - 1 ∧ x % y = Int.tmod x y + y := by
      rw [Int.ediv_emod_unique hy]
      refine ⟨by linarith, by linarith, by linarith⟩
    rw [hq.1, hq.2]
  · case _ h =>
    have hq : x / y = Int.tdiv x y ∧ x % y = Int.tmod x y := by
      rw [Int.ediv_emod_unique hy]
      refine ⟨by linarith, by linarith, by linarith⟩
    rw [hq.1, hq.2]

theorem div_eq (x y : Int) (hy : 0 < y) : div x y = x / y := by
  have h := divmod_eq x y hy
  unfold divmod at h
  unfold div
  simp only [] at *
  split at h <;> simp_all [Prod.ext_iff]

theorem mod_eq (x y : Int) (hy : 0 < y) : mod x y = .ok (x % y) := by
  unfold mod
  rw [if_pos hy]
  simp only []
  have h1 := Int.tdiv_add_tmod x y
  obtain ⟨h4, h3⟩ := tmod_bounds x y hy
  have hr : x - Int.tdiv x y * y = Int.tmod x y := by linarith
  rw [hr]
  split
  · case _ h =>
    have hq : x / y = Int.tdiv x y - 1 ∧ x % y = Int.tmod x y + y := by
      rw [Int.ediv_emod_unique hy]
      exact ⟨by linarith, by linarith, by linarith⟩
    rw [hq.2]
  · case _ h =>
    have hq : x / y = Int.tdiv x y ∧ x % y = Int.tmod x y := by
      rw [Int.ediv_emod_unique hy]
      exact ⟨by linarith, by linarith, by linarith⟩
    rw [hq.2]

/-! ### Calendar math -/

/-- Embeds `is_leap` (datetime.cc:125-133).  The source computes on
`unsigned int`; as its comment notes the result is unchanged, and every
caller passes a year that is at least 1, where C `%` and `Int.emod`
agree. -/
def is_leap (year : Int) : Bool :=
  year % 4 == 0 && (year % 100 != 0 || year % 400 == 0)

/-- The `kDaysInMonth` table (datetime.cc:118-119), 1-based. -/
def kDaysInMonth (month : Int) : Int :=
  if month = 1 then 31 else if month = 2 then 28 else if month = 3 then 31
  else if month = 4 then 30 else if month = 5 then 31 else if month = 6 then 30
  else if month = 7 then 31 else if month = 8 then 31 else if month = 9 then 30
  else if month = 10 then 31 else if month = 11 then 30 else if month = 12 then 31
  else 0

/-- The `kDaysBeforeMonth` table (datetime.cc:121-122), 1-based. -/
def kDaysBeforeMonth (month : Int) : Int :=
  if month = 1 then 0 else if month = 2 then 31 else if month = 3 then 59
  else if month = 4 then 90 else if month = 5 then 120 else if month = 6 then 151
  else if month = 7 then 181 else if month = 8 then 212 else if month = 9 then 243
  else if month = 10 then 273 else if month = 11 then 304 else if month = 12 then 334
  else 0

/-- Embeds `days_in_month` (datetime.cc:136-144). -/
def days_in_month (year month : Int) : Int :=
  if month = 2 ∧ is_leap year then 29 else kDaysInMonth month

/-- Embeds `days_before_month` (datetime.cc:147-157). -/
def days_before_month (year month : Int) : Int :=
  kDaysBeforeMonth month + (if 2 < month ∧ is_leap year then 1 else 0)

/-- Embeds `days_before_year` (datetime.cc:162-170); the source asserts
`year >= 1`, where the C truncating divisions (`Int.tdiv`) act on a
nonnegative numerator. -/
def days_before_year (year : Int) : Int :=
  let y := year - 1
  y * 365 + Int.tdiv y 4 - Int.tdiv y 100 + Int.tdiv y 400

/-- Embeds `ord_to_ymd` (datetime.cc:180-259).  The source asserts
`ordinal >= 1`; all divisions then act on nonnegative numerators.  The month
estimate `(n + 50) >> 5` is a division by 32 on that asserted domain. -/
def ord_to_ymd (ordinal : Int) : Int × Int × Int :=
  let n0 := ordinal - 1
  let n400 := Int.tdiv n0 146097
  let r400 := Int.tmod n0 146097
  let n100 := Int.tdiv r400 36524
  let r100 := Int.tmod r400 36524
  let n4 := Int.tdiv r100 1461
  let r4 := Int.tmod r100 1461
  let n1 := Int.tdiv r4 365
  let n := Int.tmod r4 365
  let year := n400 * 400 + 1 + n100 * 100 + n4 * 4 + n1
  if n1 = 4 ∨ n100 = 4 then
    (year - 1, 12, 31)
  else
    let leapyear := n1 = 3 ∧ (n4 ≠ 24 ∨ n100 = 3)
    let month := Int.tdiv (n + 50) 32
    let preceding := kDaysBeforeMonth month + (if 2 < month ∧ leapyear then 1 else 0)
    if preceding > n then
      let month2 := month - 1
      let preceding2 := preceding - days_in_month year month2
      (year, month2, n - preceding2 + 1)
    else
      (year, month, n - preceding + 1)

/-- Embeds `ymd_to_ord` (datetime.cc:262-264). -/
def ymd_to_ord (year month day : Int) : Int :=
  days_before_year year + days_before_month year month + day

/-- Embeds `weekday` (datetime.cc:267-269); for a valid date the C `%`
operand is positive so `Int.emod` agrees with it. -/
def weekday (year month day : Int) : Int :=
  (ymd_to_ord year month day + 6) % 7

/-- Embeds `iso_week1_monday` (datetime.cc:274-284). -/
def iso_week1_monday (year : Int) : Int :=
  let first_day := ymd_to_ord year 1 1
  let first_weekday := (first_day + 6) % 7
  let week1_monday := first_day - first_weekday
  if first_weekday > 3 then week1_monday + 7 else week1_monday

/-! ### Range checking constants (datetime.h:13-16) -/

def kMinYear : Int := 1
def kMaxYear : Int := 9999
def kMaxOrdinal : Int := 3652059
def kMaxDeltaDays : Int := 999999999

/-- Embeds `check_date_args` (datetime.cc:298-308) as the property it
validates. -/
def date_args_ok (year month day : Int) : Prop :=
  kMinYear ≤ year ∧ year ≤ kMaxYear ∧ 1 ≤ month ∧ month ≤ 12 ∧
    1 ≤ day ∧ day ≤ days_in_month year month

instance (year month day : Int) : Decidable (date_args_ok year month day) := by
  unfold date_args_ok
  infer_instance

/-- Embeds `check_time_args` (datetime.cc:310-324) as the property it
validates. -/
def time_args_ok (h m s us : Int) : Prop :=
  0 ≤ h ∧ h ≤ 23 ∧ 0 ≤ m ∧ m ≤ 59 ∧ 0 ≤ s ∧ s ≤ 59 ∧ 0 ≤ us ∧ us ≤ 999999

instance (h m s us : Int) : Decidable (time_args_ok h m s us) := by
  unfold time_args_ok
  infer_instance

/-! ### Normalization -/

/-- Embeds `normalize_pair` (datetime.cc:336-346).  The carried addition is
asserted not to overflow in the source; `Int` carries it exactly. -/
def normalize_pair (hi lo factor : Int) : Int × Int :=
  if lo < 0 ∨ lo ≥ factor then
    let p := divmod lo factor
    (hi + p.1, p.2)
  else (hi, lo)

/-- Embeds `normalize_d_s_us` (datetime.cc:354-370). -/
def normalize_d_s_us (d s us : Int) : Int × Int × Int :=
  let p1 := if us < 0 ∨ us ≥ 1000000 then normalize_pair s us 1000000 else (s, us)
  let p2 := if p1.1 < 0 ∨ p1.1 ≥ 24 * 3600 then normalize_pair d p1.1 (24 * 3600) else (d, p1.1)
  (p2.1, p2.2, p1.2)

/-- The common tail of `normalize_y_m_d` (datetime.cc:425-431): after the
cheap adjustments the year is checked against `[kMinYear, kMaxYear]`. -/
def norm_ymd_check (y m d : Int) : Option (Int × Int × Int) :=
  if kMinYear ≤ y ∧ y ≤ kMaxYear then some (y, m, d) else none

/-- Embeds `normalize_y_m_d` (datetime.cc:378-432); `none` is the `-1`
error return.  The source asserts `1 <= m <= 12` on entry (every caller
passes a month extracted from a valid date). -/
def normalize_y_m_d (y m d : Int) : Option (Int × Int × Int) :=
  let dim := days_in_month y m
  if d < 1 ∨ d > dim then
    if d = 0 then
      if m - 1 > 0 then norm_ymd_check y (m - 1) (days_in_month y (m - 1))
      else norm_ymd_check (y - 1) 12 31
    else if d = dim + 1 then
      if m + 1 > 12 then norm_ymd_check (y + 1) 1 1
      else norm_ymd_check y (m + 1) 1
    else
      let ordinal := ymd_to_ord y m 1 + d - 1
      if ordinal < 1 ∨ ordinal > kMaxOrdinal then none
      else some (ord_to_ymd ordinal)
  else norm_ymd_check y m d

/-! ### timedelta operations -/

def kSecondsPerDay : Int := 3600 * 24
def kUsPerSecond : Int := 1000000

/-- Embeds `timedelta::delta_to_microseconds` (datetime.cc:737-739). -/
def delta_to_microseconds (t : Timedelta) : Int :=
  (kSecondsPerDay * t.days + t.seconds) * kUsPerSecond + t.microseconds

/-- Embeds `timedelta::frommicroseconds` (datetime.cc:747-759) together with
the `check_delta_day_range` throw (datetime.cc:290-296). -/
def frommicroseconds (us : Int) : Except Err Timedelta :=
  let p1 := divmod us kUsPerSecond
  if p1.1 ≠ 0 then
    let p2 := divmod p1.1 kSecondsPerDay
    if -kMaxDeltaDays ≤ p2.1 ∧ p2.1 ≤ kMaxDeltaDays then .ok ⟨p2.1, p2.2, p1.2⟩
    else .error .range
  else .ok ⟨0, p1.1, p1.2⟩

/-- Embeds `timedelta::microseconds_to_delta` (datetime.cc:741-745). -/
def microseconds_to_delta (us : Int) : Except Err Timedelta := frommicroseconds us

/-- Embeds the normalizing constructor `timedelta::timedelta(int,int,int)`
(datetime.cc:687-695). -/
def timedelta_ctor3 (days seconds microseconds : Int) : Except Err Timedelta :=
  let p := normalize_d_s_us days seconds microseconds
  if -kMaxDeltaDays ≤ p.1 ∧ p.1 ≤ kMaxDeltaDays then .ok ⟨p.1, p.2.1, p.2.2⟩
  else .error .range

/-- Embeds the 7-argument constructor `timedelta::timedelta(int,int,int,int,
int,int,int)` (datetime.cc:697-706).  The `std::chrono` sum is performed on
the `int64_t` representation of `std::chrono::microseconds`; for arguments
whose exact total exceeds that width the signed addition/multiplication
overflows, which on the two's-complement targets the library runs on wraps
modulo `2 ^ 64` (embedded explicitly, since the wrap is observable at
`timedelta::max()`). -/
def int64_wrap (x : Int) : Int := (x + 2 ^ 63) % 2 ^ 64 - 2 ^ 63

def timedelta_ctor7 (days seconds microseconds milliseconds minutes hours weeks : Int) :
    Except Err Timedelta :=
  let us := int64_wrap (microseconds + 1000 * milliseconds + 1000000 * seconds +
    60000000 * minutes + 3600000000 * hours + 86400000000 * days + 604800000000 * weeks)
  frommicroseconds us

/-- Embeds `timedelta::max()` (datetime.h:47):
`timedelta(kMaxDeltaDays, 59, 99999, 0, 59, 23, 0)`. -/
def timedelta_max : Except Err Timedelta := timedelta_ctor7 999999999 59 99999 0 59 23 0

/-- Embeds `timedelta::operator/(int)` (datetime.cc:821-828).  Note the body
divides the total-microsecond value by `kUsPerSecond`, not by `n`; `n` is
only tested against zero. -/
def timedelta_div_int (t : Timedelta) (n : Int) : Except Err Timedelta :=
  if n = 0 then .error .domainError
  else microseconds_to_delta (div (delta_to_microseconds t) kUsPerSecond)

/-- Embeds `timedelta::operator%` (datetime.cc:835-840).  There is no check
of the right-hand side before `mod` is called. -/
def timedelta_mod_td (a rhs : Timedelta) : Except Err Timedelta := do
  let us ← mod (delta_to_microseconds a) (delta_to_microseconds rhs)
  microseconds_to_delta us

/-- Embeds `timedelta::repr` (datetime.cc:887-895).  The middle branch
formats `seconds(), microseconds()` — exactly as the source does. -/
def timedelta_repr (t : Timedelta) : String :=
  if t.microseconds ≠ 0 then
    "timedelta(" ++ toString t.days ++ ", " ++ toString t.seconds ++ ", " ++
      toString t.microseconds ++ ")"
  else if t.seconds ≠ 0 then
    "timedelta(" ++ toString t.seconds ++ ", " ++ toString t.microseconds ++ ")"
  else
    "timedelta(" ++ toString t.days ++ ")"

/-- The defaulted `operator<=>` of `timedelta` (datetime.h:66): lexicographic
comparison of the member triple `(days_, seconds_, microseconds_)`. -/
def timedelta_lt (a b : Timedelta) : Bool :=
  if a.days < b.days then true
  else if a.days = b.days then
    if a.seconds < b.seconds then true
    else if a.seconds = b.seconds then decide (a.microseconds < b.microseconds)
    else false
  else false

/-! ### date operations -/

/-- Embeds `date::operator+(timedelta)` (datetime.cc:1013-1021): only
`delta.days()` enters the day field before renormalization; `none` is the
`std::out_of_range` throw. -/
def date_add (y m d : Int) (delta : Timedelta) : Option (Int × Int × Int) :=
  normalize_y_m_d y m (d + delta.days)

/-- Embeds `date::operator-(timedelta)` (datetime.cc:1028-1036). -/
def date_sub (y m d : Int) (delta : Timedelta) : Option (Int × Int × Int) :=
  normalize_y_m_d y m (d - delta.days)

/-- Embeds `date::isocalendar` (datetime.cc:993-1011). -/
def isocalendar (y m d : Int) : Int × Int × Int :=
  let week1_monday := iso_week1_monday y
  let today := ymd_to_ord y m d
  let p := divmod (today - week1_monday) 7
  if p.1 < 0 then
    let p2 := divmod (today - iso_week1_monday (y - 1)) 7
    (y - 1, p2.1 + 1, p2.2 + 1)
  else if p.1 ≥ 52 ∧ today ≥ iso_week1_monday (y + 1) then
    (y + 1, 0 + 1, p.2 + 1)
  else
    (y, p.1 + 1, p.2 + 1)

/-- Embeds `date::fromisocalendar` (datetime.cc:949-987), including the
final validating `date` constructor. -/
def fromisocalendar (iy iw iwd : Int) : Except Err (Int × Int × Int) :=
  if iy < kMinYear ∨ iy > kMaxYear then .error .range
  else if (iw ≤ 0 ∨ iw ≥ 53) ∧
      ¬(iw = 53 ∧ (weekday iy 1 1 = 3 ∨ (weekday iy 1 1 = 2 ∧ is_leap iy))) then
    .error .range
  else if iwd ≤ 0 ∨ iwd ≥ 8 then .error .range
  else
    let day1 := iso_week1_monday iy
    let day_offset := (iw - 1) * 7 + iwd - 1
    let v := ord_to_ymd (day1 + day_offset)
    if date_args_ok v.1 v.2.1 v.2.2 then .ok v else .error .range

/-! ### Calendar round-trip machinery (claims C2, C4, C5) -/

theorem days_before_year_eq (y : Int) (hy : 1 ≤ y) :
    days_before_year y = (y - 1) * 365 + (y - 1) / 4 - (y - 1) / 100 + (y - 1) / 400 := by
  simp only [days_before_year]
  rw [Int.tdiv_eq_ediv (by omega) (by norm_num), Int.tdiv_eq_ediv (by omega) (by norm_num),
    Int.tdiv_eq_ediv (by omega) (by norm_num)]

theorem is_leap_iff (y : Int) :
    is_leap y = true ↔ (y % 4 = 0 ∧ (¬ y % 100 = 0 ∨ y % 400 = 0)) := by
  simp [is_leap]

/-- Decomposition of a year `y ≥ 1`: `y - 1 = 400a + 100c + 4q + u`. -/
theorem year_decomp (y : Int) (hy : 1 ≤ y) :
    ∃ a c q u : Int, y - 1 = 400 * a + 100 * c + 4 * q + u ∧ 0 ≤ a ∧
      0 ≤ c ∧ c ≤ 3 ∧ 0 ≤ q ∧ q ≤ 24 ∧ 0 ≤ u ∧ u ≤ 3 ∧
      days_before_year y = 146097 * a + 36524 * c + 1461 * q + 365 * u ∧
      (is_leap y = true ↔ (u = 3 ∧ (q ≠ 24 ∨ c = 3))) := by
  refine ⟨(y - 1) / 400, (y - 1) % 400 / 100, (y - 1) % 100 / 4, (y - 1) % 4,
    by omega, by omega, by omega, by omega, by omega, by omega, by omega, by omega, ?_, ?_⟩
  · rw [days_before_year_eq y hy]
    omega
  · rw [is_leap_iff]
    omega

/-- Proof-side mirror of the month estimate/correction step of
`ord_to_ymd`, on the day-of-year offset `n` with leap flag `L`. -/
def month_step (L : Bool) (n : Int) : Int × Int :=
  let month := (n + 50) / 32
  let preceding := kDaysBeforeMonth month + (if 2 < month ∧ L = true then 1 else 0)
  if preceding > n then
    let month2 := month - 1
    let preceding2 := preceding - (if month2 = 2 ∧ L = true then 29 else kDaysInMonth month2)
    (month2, n - preceding2 + 1)
  else (month, n - preceding + 1)

set_option maxHeartbeats 1000000 in
theorem month_step_decode (L : Bool) (m d : Int) (hm1 : 1 ≤ m) (hm2 : m ≤ 12) (hd1 : 1 ≤ d)
    (hd2 : d ≤ (if m = 2 ∧ L = true then 29 else kDaysInMonth m)) :
    month_step L (kDaysBeforeMonth m + (if 2 < m ∧ L = true then 1 else 0) + d - 1) = (m, d) := by
  simp only [month_step]
  generalize he : (kDaysBeforeMonth m + (if 2 < m ∧ L = true then 1 else 0) + d - 1 + 50) / 32 = e
  cases L <;> interval_cases m <;>
    (try simp only [kDaysBeforeMonth, kDaysInMonth] at *) <;>
    (try norm_num at *) <;>
    (have h1e : 1 ≤ e := by omega
     have h2e : e ≤ 13 := by omega
     interval_cases e <;>
       (try simp only [kDaysBeforeMonth, kDaysInMonth]) <;>
       (try norm_num) <;> (try split_ifs) <;> (try simp [Prod.mk.injEq]) <;> omega)

theorem doy_prop (L : Bool) (m d : Int) (hm1 : 1 ≤ m) (hm2 : m ≤ 12) (hd1 : 1 ≤ d)
    (hd2 : d ≤ (if m = 2 ∧ L = true then 29 else kDaysInMonth m)) :
    0 ≤ kDaysBeforeMonth m + (if 2 < m ∧ L = true then 1 else 0) + d - 1 ∧
    kDaysBeforeMonth m + (if 2 < m ∧ L = true then 1 else 0) + d - 1 ≤
      (if L = true then 365 else 364) ∧
    (kDaysBeforeMonth m + (if 2 < m ∧ L = true then 1 else 0) + d - 1 = 365 →
      L = true ∧ m = 12 ∧ d = 31) := by
  cases L <;> interval_cases m <;>
    (try simp only [kDaysBeforeMonth, kDaysInMonth] at *) <;> (try norm_num at *) <;> omega

/-- `ord_to_ymd` is a left inverse of `ymd_to_ord` on well-formed dates
(year at least 1, month in `[1,12]`, day in `[1, days_in_month]`). -/
theorem ord_to_ymd_ymd_to_ord (y m d : Int) (hy : 1 ≤ y) (hm1 : 1 ≤ m) (hm2 : m ≤ 12)
    (hd1 : 1 ≤ d) (hd2 : d ≤ days_in_month y m) :
    ord_to_ymd (ymd_to_ord y m d) = (y, m, d) := by
  obtain ⟨a, c, q, u, hdec, ha, hc0, hc3, hq0, hq24, hu0, hu3, hdby, hLiff⟩ := year_decomp y hy
  simp only [days_in_month] at hd2
  have hdL : d ≤ (if m = 2 ∧ is_leap y = true then 29 else kDaysInMonth m) := hd2
  have hdoy := doy_prop (is_leap y) m d hm1 hm2 hd1 hdL
  simp only [ord_to_ymd]
  have hkdef : ymd_to_ord y m d - 1 =
      146097 * a + 36524 * c + 1461 * q + 365 * u +
        (kDaysBeforeMonth m + (if 2 < m ∧ is_leap y = true then 1 else 0) + d - 1) := by
    simp only [ymd_to_ord, days_before_month]
    omega
  generalize hk : kDaysBeforeMonth m + (if 2 < m ∧ is_leap y = true then 1 else 0) + d - 1 = k
    at hkdef hdoy
  generalize hn0 : ymd_to_ord y m d - 1 = n0 at hkdef
  have hn0nn : 0 ≤ n0 := by
    rcases hdoy with ⟨h1, h2, h3⟩
    split at h2 <;> omega
  rw [Int.tdiv_eq_ediv hn0nn (by norm_num : (0:Int) ≤ 146097),
    Int.tmod_eq_emod hn0nn (by norm_num : (0:Int) ≤ 146097)]
  have hr1nn : 0 ≤ n0 % 146097 := Int.emod_nonneg n0 (by norm_num)
  rw [Int.tdiv_eq_ediv hr1nn (by norm_num : (0:Int) ≤ 36524),
    Int.tmod_eq_emod hr1nn (by norm_num : (0:Int) ≤ 36524)]
  have hr2nn : 0 ≤ n0 % 146097 % 36524 := Int.emod_nonneg _ (by norm_num)
  rw [Int.tdiv_eq_ediv hr2nn (by norm_num : (0:Int) ≤ 1461),
    Int.tmod_eq_emod hr2nn (by norm_num : (0:Int) ≤ 1461)]
  have hr3nn : 0 ≤ n0 % 146097 % 36524 % 1461 := Int.emod_nonneg _ (by norm_num)
  rw [Int.tdiv_eq_ediv hr3nn (by norm_num : (0:Int) ≤ 365),
    Int.tmod_eq_emod hr3nn (by norm_num : (0:Int) ≤ 365)]
  have hr4nn : 0 ≤ n0 % 146097 % 36524 % 1461 % 365 := Int.emod_nonneg _ (by norm_num)
  rw [Int.tdiv_eq_ediv (by omega : (0:Int) ≤ n0 % 146097 % 36524 % 1461 % 365 + 50)
    (by norm_num : (0:Int) ≤ 32)]
  obtain ⟨hdoy1, hdoy2, hdoy3⟩ := hdoy
  rcases (show k ≤ 364 ∨ k = 365 from by split at hdoy2 <;> omega) with hk365 | hk365
  · have e1 : n0 / 146097 = a := by omega
    have e2 : n0 % 146097 = 36524 * c + 1461 * q + 365 * u + k := by omega
    rw [e1, e2]
    have e3 : (36524 * c + 1461 * q + 365 * u + k) / 36524 = c := by omega
    have e4 : (36524 * c + 1461 * q + 365 * u + k) % 36524 = 1461 * q + 365 * u + k := by
      omega
    rw [e3, e4]
    have e5 : (1461 * q + 365 * u + k) / 1461 = q := by omega
    have e6 : (1461 * q + 365 * u + k) % 1461 = 365 * u + k := by omega
    rw [e5, e6]
    have e7 : (365 * u + k) / 365 = u := by omega
    have e8 : (365 * u + k) % 365 = k := by omega
    rw [e7, e8]
    rw [if_neg (by omega : ¬(u = 4 ∨ c = 4))]
    rw [show a * 400 + 1 + c * 100 + q * 4 + u = y from by omega]
    simp only [← hLiff]
    have hdecm := month_step_decode (is_leap y) m d hm1 hm2 hd1 hdL
    rw [hk] at hdecm
    simp only [month_step] at hdecm
    simp only [days_in_month]
    rw [← apply_ite (Prod.mk y)]
    exact congrArg _ hdecm
  · obtain ⟨hLy, hm12, hd31⟩ := hdoy3 hk365
    obtain ⟨hu3, hqc⟩ := hLiff.mp hLy
    subst hm12
    subst hd31
    rcases (show q = 24 ∨ q ≤ 23 from by omega) with hq | hq
    · have hc3 : c = 3 := by tauto
      have e1 : n0 / 146097 = a := by omega
      have e2 : n0 % 146097 = 146096 := by omega
      rw [e1, e2]
      norm_num
      omega
    · have e1 : n0 / 146097 = a := by omega
      have e2 : n0 % 146097 = 36524 * c + 1461 * q + 1460 := by omega
      rw [e1, e2]
      have e3 : (36524 * c + 1461 * q + 1460) / 36524 = c := by omega
      have e4 : (36524 * c + 1461 * q + 1460) % 36524 = 1461 * q + 1460 := by omega
      rw [e3, e4]
      have e5 : (1461 * q + 1460) / 1461 = q := by omega
      have e6 : (1461 * q + 1460) % 1461 = 1460 := by omega
      rw [e5, e6]
      have e7 : ((1460:Int)) / 365 = 4 := by norm_num
      rw [e7]
      rw [if_pos (Or.inl rfl)]
      simp only [Prod.mk.injEq, and_true, true_and]
      omega

theorem dby_step (y : Int) (hy : 1 ≤ y) :
    days_before_year (y + 1) = days_before_year y + (if is_leap y = true then 366 else 365) := by
  rw [days_before_year_eq y hy, days_before_year_eq (y + 1) (by omega)]
  split_ifs with h
  · have := (is_leap_iff y).mp h
    omega
  · have : ¬(y % 4 = 0 ∧ (¬ y % 100 = 0 ∨ y % 400 = 0)) := fun hc => h ((is_leap_iff y).mpr hc)
    omega

theorem dby_mono (x y : Int) (h1 : 1 ≤ x) (hxy : x ≤ y) :
    days_before_year x ≤ days_before_year y := by
  rw [days_before_year_eq x h1, days_before_year_eq y (by omega)]
  omega

theorem dbm_step (y m : Int) (hm1 : 1 ≤ m) (hm2 : m ≤ 11) :
    days_before_month y (m + 1) = days_before_month y m + days_in_month y m := by
  simp only [days_before_month, days_in_month]
  rcases Bool.eq_false_or_eq_true (is_leap y) with hL | hL <;>
    interval_cases m <;> simp [hL, kDaysBeforeMonth, kDaysInMonth]

/-- Every well-formed date has a well-formed successor date whose ordinal is
one greater. -/
theorem ymd_succ_exists (y m d : Int) (hy : 1 ≤ y) (hm1 : 1 ≤ m) (hm2 : m ≤ 12)
    (hd1 : 1 ≤ d) (hd2 : d ≤ days_in_month y m) :
    ∃ y2 m2 d2 : Int, 1 ≤ y2 ∧ 1 ≤ m2 ∧ m2 ≤ 12 ∧ 1 ≤ d2 ∧ d2 ≤ days_in_month y2 m2 ∧
      ymd_to_ord y2 m2 d2 = ymd_to_ord y m d + 1 := by
  rcases (show d < days_in_month y m ∨ d = days_in_month y m from by omega) with hlt | heq
  · exact ⟨y, m, d + 1, hy, hm1, hm2, by omega, by omega, by simp only [ymd_to_ord]; ring⟩
  · rcases (show m ≤ 11 ∨ m = 12 from by omega) with hm11 | hm12
    · refine ⟨y, m + 1, 1, hy, by omega, by omega, by omega, ?_, ?_⟩
      · simp only [days_in_month]
        rcases Bool.eq_false_or_eq_true (is_leap y) with hL | hL <;>
          interval_cases m <;> simp [hL, kDaysInMonth]
      · simp only [ymd_to_ord, dbm_step y m hm1 hm11]
        omega
    · subst hm12
      have h31 : days_in_month y 12 = 31 := by
        simp [days_in_month, kDaysInMonth]
      refine ⟨y + 1, 1, 1, by omega, by omega, by omega, by omega, ?_, ?_⟩
      · simp only [days_in_month]
        rcases Bool.eq_false_or_eq_true (is_leap (y + 1)) with hL | hL <;>
          simp [hL, kDaysInMonth]
      · simp only [ymd_to_ord, dby_step y hy, days_before_month]
        rcases Bool.eq_false_or_eq_true (is_leap y) with hL | hL <;>
          simp [hL, kDaysBeforeMonth] <;> omega

/-- Every ordinal at least 1 is `ymd_to_ord` of a well-formed date. -/
theorem ymd_to_ord_surj (o : Int) (ho : 1 ≤ o) :
    ∃ y m d : Int, 1 ≤ y ∧ 1 ≤ m ∧ m ≤ 12 ∧ 1 ≤ d ∧ d ≤ days_in_month y m ∧
      ymd_to_ord y m d = o := by
  obtain ⟨k, rfl⟩ : ∃ k : Nat, o = 1 + (k : Int) := ⟨(o - 1).toNat, by omega⟩
  clear ho
  induction k with
  | zero =>
    exact ⟨1, 1, 1, by norm_num, by norm_num, by norm_num, by norm_num, by decide, by decide⟩
  | succ k ih =>
    obtain ⟨y, m, d, hy, hm1, hm2, hd1, hd2, ho⟩ := ih
    obtain ⟨y2, m2, d2, hy2, hm21, hm22, hd21, hd22, ho2⟩ :=
      ymd_succ_exists y m d hy hm1 hm2 hd1 hd2
    refine ⟨y2, m2, d2, hy2, hm21, hm22, hd21, hd22, ?_⟩
    rw [ho2, ho]
    push_cast
    ring

/-- `ymd_to_ord` is a left inverse of `ord_to_ymd` on every ordinal at
least 1 (in particular on `[1, 3652059]`). -/
theorem ymd_to_ord_ord_to_ymd (o : Int) (ho : 1 ≤ o) :
    ymd_to_ord (ord_to_ymd o).1 (ord_to_ymd o).2.1 (ord_to_ymd o).2.2 = o := by
  obtain ⟨y, m, d, hy, hm1, hm2, hd1, hd2, rfl⟩ := ymd_to_ord_surj o ho
  rw [ord_to_ymd_ymd_to_ord y m d hy hm1 hm2 hd1 hd2]

/-- For an ordinal at least 1, `ord_to_ymd` returns a well-formed date. -/
theorem ord_to_ymd_wf (o : Int) (ho : 1 ≤ o) :
    1 ≤ (ord_to_ymd o).1 ∧ 1 ≤ (ord_to_ymd o).2.1 ∧ (ord_to_ymd o).2.1 ≤ 12 ∧
      1 ≤ (ord_to_ymd o).2.2 ∧
      (ord_to_ymd o).2.2 ≤ days_in_month (ord_to_ymd o).1 (ord_to_ymd o).2.1 := by
  obtain ⟨y, m, d, hy, hm1, hm2, hd1, hd2, rfl⟩ := ymd_to_ord_surj o ho
  rw [ord_to_ymd_ymd_to_ord y m d hy hm1 hm2 hd1 hd2]
  exact ⟨hy, hm1, hm2, hd1, hd2⟩

/-- Ordinal bounds of a well-formed date within its year. -/
theorem ymd_to_ord_bounds (y m d : Int) (hy : 1 ≤ y) (hm1 : 1 ≤ m) (hm2 : m ≤ 12)
    (hd1 : 1 ≤ d) (hd2 : d ≤ days_in_month y m) :
    days_before_year y + 1 ≤ ymd_to_ord y m d ∧
      ymd_to_ord y m d ≤ days_before_year (y + 1) := by
  simp only [days_in_month] at hd2
  have hdoy := doy_prop (is_leap y) m d hm1 hm2 hd1 hd2
  have hstep := dby_step y hy
  simp only [ymd_to_ord, days_before_month]
  rcases hdoy with ⟨h1, h2, h3⟩
  clear h3
  split_ifs at * <;> omega

/-! ### Claim C2: the ordinal round-trip -/

/-- C2: for every ordinal `o` in `[1, 3652059]`, converting with
`ord_to_ymd` and back with `ymd_to_ord` yields `o` again. -/
theorem c2_ordinal_roundtrip (o : Int) (h1 : 1 ≤ o) (h2 : o ≤ 3652059) :
    ymd_to_ord (ord_to_ymd o).1 (ord_to_ymd o).2.1 (ord_to_ymd o).2.2 = o :=
  ymd_to_ord_ord_to_ymd o h1

/-- C2 witness: the theorem applied at the largest ordinal, 3652059
(which `ord_to_ymd` maps to 9999-12-31). -/
theorem c2_ordinal_roundtrip_witness :
    (1 ≤ (3652059 : Int) ∧ (3652059 : Int) ≤ 3652059) ∧
    ymd_to_ord (ord_to_ymd 3652059).1 (ord_to_ymd 3652059).2.1 (ord_to_ymd 3652059).2.2 =
      3652059 :=
  ⟨⟨by norm_num, le_refl _⟩, c2_ordinal_roundtrip 3652059 (by norm_num) (by norm_num)⟩

/-! ### Claim C4: `date` plus/minus `timedelta` -/

theorem dim_bounds (y m : Int) (hm1 : 1 ≤ m) (hm2 : m ≤ 12) :
    1 ≤ days_in_month y m ∧ days_in_month y m ≤ 31 := by
  simp only [days_in_month]
  rcases Bool.eq_false_or_eq_true (is_leap y) with hL | hL <;>
    interval_cases m <;> simp [hL, kDaysInMonth]

theorem dby_nonneg (y : Int) (hy : 1 ≤ y) : 0 ≤ days_before_year y := by
  have h := dby_mono 1 y (by norm_num) hy
  have h1 : days_before_year 1 = 0 := by decide
  omega

/-- Behaviour of `normalize_y_m_d` for a month in range and a year in
`[1, 9999]` (as supplied by `date::operator+`/`operator-`): it succeeds
exactly when the ordinal `ymd_to_ord y m d` is in `[1, 3652059]`, and then
returns the date of that ordinal. -/
theorem normalize_y_m_d_spec (y m d : Int) (hy1 : 1 ≤ y) (hy2 : y ≤ 9999)
    (hm1 : 1 ≤ m) (hm2 : m ≤ 12) :
    normalize_y_m_d y m d =
      if 1 ≤ ymd_to_ord y m d ∧ ymd_to_ord y m d ≤ 3652059
      then some (ord_to_ymd (ymd_to_ord y m d)) else none := by
  have hN : days_before_year 10000 = 3652059 := by decide
  have h2v : days_before_year 2 = 365 := by decide
  have hup : days_before_year (y + 1) ≤ 3652059 := by
    have := dby_mono (y + 1) 10000 (by omega) (by omega)
    omega
  have hdim := dim_bounds y m hm1 hm2
  simp only [normalize_y_m_d, norm_ymd_check, kMinYear, kMaxYear, kMaxOrdinal]
  split
  · case _ hout =>
    split
    · case _ hd0 =>
      split
      · case _ hmgt =>
        rw [if_pos ⟨hy1, hy2⟩]
        have hstep := dbm_step y (m - 1) (by omega) (by omega)
        rw [show m - 1 + 1 = m from by ring] at hstep
        have hdim' := dim_bounds y (m - 1) (by omega) (by omega)
        have ho' : ymd_to_ord y m d = ymd_to_ord y (m - 1) (days_in_month y (m - 1)) := by
          simp only [ymd_to_ord]
          omega
        have hb := ymd_to_ord_bounds y (m - 1) (days_in_month y (m - 1)) hy1 (by omega)
          (by omega) (by omega) (le_refl _)
        have hnn := dby_nonneg y hy1
        rw [ho', if_pos (by omega)]
        exact congrArg some (ord_to_ymd_ymd_to_ord y (m - 1) (days_in_month y (m - 1)) hy1
          (by omega) (by omega) (by omega) (le_refl _)).symm
      · case _ hmgt =>
        have hm1' : m = 1 := by omega
        have ho' : ymd_to_ord y m d = days_before_year y := by
          subst hm1'
          simp only [ymd_to_ord, days_before_month, kDaysBeforeMonth]
          norm_num
          omega
        rcases (show y = 1 ∨ 2 ≤ y from by omega) with hy1' | hy1'
        · rw [if_neg (by omega : ¬(1 ≤ y - 1 ∧ y - 1 ≤ 9999))]
          have h1v : days_before_year 1 = 0 := by decide
          rw [if_neg (by rw [ho', hy1']; omega)]
        · rw [if_pos (by omega : 1 ≤ y - 1 ∧ y - 1 ≤ 9999)]
          have hstep := dby_step (y - 1) (by omega)
          rw [show y - 1 + 1 = y from by ring] at hstep
          have h31 : days_in_month (y - 1) 12 = 31 := by
            simp [days_in_month, kDaysInMonth]
          have ho'' : ymd_to_ord y m d = ymd_to_ord (y - 1) 12 31 := by
            rw [ho']
            simp only [ymd_to_ord, days_before_month]
            rcases Bool.eq_false_or_eq_true (is_leap (y - 1)) with hL | hL <;>
              rw [hL] at hstep ⊢ <;> simp [kDaysBeforeMonth] at hstep ⊢ <;> omega
          have hb := ymd_to_ord_bounds (y - 1) 12 31 (by omega) (by norm_num) (by norm_num)
            (by norm_num) (by omega)
          rw [show y - 1 + 1 = y from by ring] at hb
          have hmono := dby_mono y (y + 1) (by omega) (by omega)
          have hnn := dby_nonneg (y - 1) (by omega)
          rw [ho'', if_pos (by omega)]
          exact congrArg some (ord_to_ymd_ymd_to_ord (y - 1) 12 31 (by omega) (by norm_num)
            (by norm_num) (by norm_num) (by omega)).symm
    · split
      · case _ hdp1 =>
        split
        · case _ hm12 =>
          have hm12' : m = 12 := by omega
          have hstep := dby_step y hy1
          have h31 : days_in_month y 12 = 31 := by
            simp [days_in_month, kDaysInMonth]
          have ho' : ymd_to_ord y m d = ymd_to_ord (y + 1) 1 1 := by
            subst hm12'
            simp only [ymd_to_ord, days_before_month]
            rcases Bool.eq_false_or_eq_true (is_leap y) with hL | hL <;>
              rw [hL] at hstep ⊢ <;> simp [kDaysBeforeMonth] at hstep ⊢ <;> omega
          rcases (show y ≤ 9998 ∨ y = 9999 from by omega) with hy9 | hy9
          · rw [if_pos (by omega : 1 ≤ y + 1 ∧ y + 1 ≤ 9999)]
            have h31' : days_in_month (y + 1) 1 = 31 := by
              simp [days_in_month, kDaysInMonth]
            have hb := ymd_to_ord_bounds (y + 1) 1 1 (by omega) (by norm_num) (by norm_num)
              (by norm_num) (by omega)
            have hup2 : days_before_year (y + 1 + 1) ≤ 3652059 := by
              have := dby_mono (y + 1 + 1) 10000 (by omega) (by omega)
              omega
            have hnn := dby_nonneg (y + 1) (by omega)
            rw [ho', if_pos (by omega)]
            exact congrArg some (ord_to_ymd_ymd_to_ord (y + 1) 1 1 (by omega) (by norm_num)
              (by norm_num) (by norm_num) (by omega)).symm
          · rw [if_neg (by omega : ¬(1 ≤ y + 1 ∧ y + 1 ≤ 9999))]
            rw [ho', hy9]
            rw [if_neg (by decide :
              ¬(1 ≤ ymd_to_ord (9999 + 1) 1 1 ∧ ymd_to_ord (9999 + 1) 1 1 ≤ 3652059))]
        · case _ hm12 =>
          rw [if_pos ⟨hy1, hy2⟩]
          have hstep := dbm_step y m hm1 (by omega)
          have hdim' := dim_bounds y (m + 1) (by omega) (by omega)
          have ho' : ymd_to_ord y m d = ymd_to_ord y (m + 1) 1 := by
            simp only [ymd_to_ord]
            omega
          have hb := ymd_to_ord_bounds y (m + 1) 1 hy1 (by omega) (by omega) (by norm_num)
            (by omega)
          have hnn := dby_nonneg y hy1
          rw [ho', if_pos (by omega)]
          exact congrArg some (ord_to_ymd_ymd_to_ord y (m + 1) 1 hy1 (by omega) (by omega)
            (by norm_num) (by omega)).symm
      · case _ hdgen =>
        have ho' : ymd_to_ord y m 1 + d - 1 = ymd_to_ord y m d := by
          simp only [ymd_to_ord]
          omega
        rw [ho']
        split
        · case _ hrange => rw [if_neg (by omega)]
        · case _ hrange => rw [if_pos (by omega)]
  · case _ hin =>
    rw [if_pos ⟨hy1, hy2⟩]
    have hb := ymd_to_ord_bounds y m d hy1 hm1 hm2 (by omega) (by omega)
    have hnn := dby_nonneg y hy1
    rw [if_pos (by omega)]
    exact congrArg some (ord_to_ymd_ymd_to_ord y m d hy1 hm1 hm2 (by omega) (by omega)).symm

/-- C4: for a valid date and any timedelta, `date::operator+` and
`operator-` depend only on the delta day count (seconds and microseconds of
the delta are ignored), and they produce the date whose ordinal is
`toordinal() ± delta.days()` when that ordinal is in `[1, 3652059]`, failing
with a range error otherwise. -/
theorem c4_date_add_sub_days (y m d : Int) (t : Timedelta) (hv : date_args_ok y m d) :
    (∀ t2 : Timedelta, t2.days = t.days →
      date_add y m d t2 = date_add y m d t ∧ date_sub y m d t2 = date_sub y m d t) ∧
    date_add y m d t =
      (if 1 ≤ ymd_to_ord y m d + t.days ∧ ymd_to_ord y m d + t.days ≤ 3652059
       then some (ord_to_ymd (ymd_to_ord y m d + t.days)) else none) ∧
    date_sub y m d t =
      (if 1 ≤ ymd_to_ord y m d - t.days ∧ ymd_to_ord y m d - t.days ≤ 3652059
       then some (ord_to_ymd (ymd_to_ord y m d - t.days)) else none) := by
  simp only [date_args_ok, kMinYear, kMaxYear] at hv
  obtain ⟨hy1, hy2, hm1, hm2, hd1, hd2⟩ := hv
  refine ⟨fun t2 ht => by simp only [date_add, date_sub, ht]; exact ⟨trivial, trivial⟩, ?_, ?_⟩
  · rw [show date_add y m d t = normalize_y_m_d y m (d + t.days) from rfl,
      normalize_y_m_d_spec y m (d + t.days) hy1 hy2 hm1 hm2]
    have h : ymd_to_ord y m (d + t.days) = ymd_to_ord y m d + t.days := by
      simp only [ymd_to_ord]
      ring
    rw [h]
  · rw [show date_sub y m d t = normalize_y_m_d y m (d - t.days) from rfl,
      normalize_y_m_d_spec y m (d - t.days) hy1 hy2 hm1 hm2]
    have h : ymd_to_ord y m (d - t.days) = ymd_to_ord y m d - t.days := by
      simp only [ymd_to_ord]
      ring
    rw [h]

/-- C4 witness: the theorem applied at the date 2021-08-31 and the delta
`timedelta(31, 5, 7)`: adding lands on 2021-10-01 (ordinal 738064),
subtracting on 2021-07-31 (ordinal 738002). -/
theorem c4_date_add_sub_days_witness :
    date_args_ok 2021 8 31 ∧
    ((∀ t2 : Timedelta, t2.days = (31 : Int) →
        date_add 2021 8 31 t2 = date_add 2021 8 31 ⟨31, 5, 7⟩ ∧
        date_sub 2021 8 31 t2 = date_sub 2021 8 31 ⟨31, 5, 7⟩) ∧
      date_add 2021 8 31 ⟨31, 5, 7⟩ =
        (if 1 ≤ ymd_to_ord 2021 8 31 + (31 : Int) ∧
            ymd_to_ord 2021 8 31 + (31 : Int) ≤ 3652059
         then some (ord_to_ymd (ymd_to_ord 2021 8 31 + (31 : Int))) else none) ∧
      date_sub 2021 8 31 ⟨31, 5, 7⟩ =
        (if 1 ≤ ymd_to_ord 2021 8 31 - (31 : Int) ∧
            ymd_to_ord 2021 8 31 - (31 : Int) ≤ 3652059
         then some (ord_to_ymd (ymd_to_ord 2021 8 31 - (31 : Int))) else none)) :=
  ⟨by decide, c4_date_add_sub_days 2021 8 31 ⟨31, 5, 7⟩ (by decide)⟩

/-! ### Claim C6: the normalizing timedelta constructor -/

theorem normalize_pair_spec (hi lo factor : Int) (hf : 0 < factor) :
    0 ≤ (normalize_pair hi lo factor).2 ∧ (normalize_pair hi lo factor).2 < factor ∧
    (normalize_pair hi lo factor).1 * factor + (normalize_pair hi lo factor).2 =
      hi * factor + lo := by
  unfold normalize_pair
  split
  · rw [divmod_eq lo factor hf]
    have h5 := Int.emod_nonneg lo (by omega : factor ≠ 0)
    have h6 := Int.emod_lt_of_pos lo hf
    have h7 := Int.ediv_add_emod lo factor
    refine ⟨h5, h6, ?_⟩
    show (hi + lo / factor) * factor + lo % factor = hi * factor + lo
    ring_nf
    linarith
  · refine ⟨by omega, by omega, rfl⟩

theorem normalize_d_s_us_spec (d s us : Int) :
    0 ≤ (normalize_d_s_us d s us).2.1 ∧ (normalize_d_s_us d s us).2.1 < 86400 ∧
    0 ≤ (normalize_d_s_us d s us).2.2 ∧ (normalize_d_s_us d s us).2.2 < 1000000 ∧
    ((86400 * (normalize_d_s_us d s us).1 + (normalize_d_s_us d s us).2.1) * 1000000 +
      (normalize_d_s_us d s us).2.2 = (86400 * d + s) * 1000000 + us) ∧
    (0 ≤ s ∧ s < 86400 ∧ 0 ≤ us ∧ us < 1000000 → normalize_d_s_us d s us = (d, s, us)) := by
  simp only [normalize_d_s_us]
  split
  · case _ hus =>
    have h1 := normalize_pair_spec s us 1000000 (by norm_num)
    split
    · case _ hs =>
      have h2 := normalize_pair_spec d (normalize_pair s us 1000000).1 (24 * 3600)
        (by norm_num)
      refine ⟨by omega, by omega, by omega, by omega, by omega, fun h => by omega⟩
    · case _ hs =>
      refine ⟨by omega, by omega, by omega, by omega, by omega, fun h => by omega⟩
  · case _ hus =>
    split
    · case _ hs =>
      have h2 := normalize_pair_spec d ((s, us) : Int × Int).1 (24 * 3600) (by norm_num)
      refine ⟨by omega, by omega, by omega, by omega, by omega, fun h => by omega⟩
    · case _ hs =>
      exact ⟨by omega, by omega, by omega, by omega, rfl, fun h => rfl⟩

/-- C6: `normalize_d_s_us` always produces `0 ≤ seconds < 86400` and
`0 ≤ microseconds < 1_000_000`, preserves the total microsecond value,
is the identity on already-normalized arguments, and the normalizing
constructor `timedelta(int,int,int)` fails with a range error exactly when
the normalized day count lies outside `[-999_999_999, 999_999_999]`. -/
theorem c6_ctor_normalizes (d s us : Int) :
    (0 ≤ (normalize_d_s_us d s us).2.1 ∧ (normalize_d_s_us d s us).2.1 < 86400 ∧
      0 ≤ (normalize_d_s_us d s us).2.2 ∧ (normalize_d_s_us d s us).2.2 < 1000000) ∧
    ((86400 * (normalize_d_s_us d s us).1 + (normalize_d_s_us d s us).2.1) * 1000000 +
      (normalize_d_s_us d s us).2.2 = (86400 * d + s) * 1000000 + us) ∧
    (0 ≤ s ∧ s < 86400 ∧ 0 ≤ us ∧ us < 1000000 → normalize_d_s_us d s us = (d, s, us)) ∧
    (timedelta_ctor3 d s us =
      if -kMaxDeltaDays ≤ (normalize_d_s_us d s us).1 ∧
          (normalize_d_s_us d s us).1 ≤ kMaxDeltaDays then
        .ok ⟨(normalize_d_s_us d s us).1, (normalize_d_s_us d s us).2.1,
          (normalize_d_s_us d s us).2.2⟩
      else .error .range) := by
  obtain ⟨h1, h2, h3, h4, h5, h6⟩ := normalize_d_s_us_spec d s us
  exact ⟨⟨h1, h2, h3, h4⟩, h5, h6, rfl⟩

theorem c6_ctor_normalizes_witness :
    normalize_d_s_us 3 5 7 = (3, 5, 7) ∧
    timedelta_ctor3 0 (-1) (-1) = .ok ⟨-1, 86398, 999999⟩ :=
  ⟨(c6_ctor_normalizes 3 5 7).2.2.1 (by decide), by rfl⟩

/-! ### Claim C7: packed byte comparison

The `date`, `time` and `datetime` classes store their fields in an
`unsigned char data_[N]` array (datetime.h:118-162, 192-236, 287-382) and
compare with the defaulted `operator<=>`, which is lexicographic on the
byte array.  Valid field values are nonnegative, so the `static_cast
<unsigned char>` packing is embedded over `Nat`. -/

/-- The bytes stored by `date::set_year/set_month/set_day`
(datetime.h:145-150): `[(y & 0xff00) >> 8, y & 0xff, m, d]`. -/
def date_pack (year month day : Nat) : List Nat :=
  [(year &&& 0xff00) >>> 8, year &&& 0x00ff, month % 256, day % 256]

/-- The bytes stored by `time::set_hour/.../set_microsecond`
(datetime.h:222-229). -/
def time_pack (hour minute second microsecond : Nat) : List Nat :=
  [hour % 256, minute % 256, second % 256,
   (microsecond &&& 0xff0000) >>> 16, (microsecond &&& 0x00ff00) >>> 8,
   microsecond &&& 0x0000ff]

/-- The bytes stored by `datetime::set_year/.../set_microsecond`
(datetime.h:361-374). -/
def datetime_pack (year month day hour minute second microsecond : Nat) : List Nat :=
  [(year &&& 0xff00) >>> 8, year &&& 0x00ff, month % 256, day % 256,
   hour % 256, minute % 256, second % 256,
   (microsecond &&& 0xff0000) >>> 16, (microsecond &&& 0x00ff00) >>> 8,
   microsecond &&& 0x0000ff]

/-- Lexicographic order on equal-length byte arrays: what the defaulted
`operator<=>` over `unsigned char data_[N]` computes (`lhs < rhs`). -/
def lex_lt : List Nat → List Nat → Bool
  | [], [] => false
  | [], _ :: _ => true
  | _ :: _, [] => false
  | a :: as, b :: bs => if a < b then true else if a = b then lex_lt as bs else false

theorem and_ff (y : Nat) : y &&& 0xff = y % 256 := by
  have := Nat.and_pow_two_sub_one_eq_mod y 8
  norm_num at this
  exact this

theorem and_ff00_shift (y : Nat) : (y &&& 0xff00) >>> 8 = y / 256 % 256 := by
  have h : (y &&& 0xff00) >>> 8 = (y >>> 8) &&& 0xff := by
    apply Nat.eq_of_testBit_eq
    intro i
    rw [Nat.testBit_shiftRight, Nat.testBit_and, Nat.testBit_and, Nat.testBit_shiftRight]
    rw [show (0xff00 : Nat) = 0xff <<< 8 from rfl, Nat.testBit_shiftLeft]
    simp
  rw [h, and_ff, Nat.shiftRight_eq_div_pow]

theorem and_ff0000_shift (y : Nat) : (y &&& 0xff0000) >>> 16 = y / 65536 % 256 := by
  have h : (y &&& 0xff0000) >>> 16 = (y >>> 16) &&& 0xff := by
    apply Nat.eq_of_testBit_eq
    intro i
    rw [Nat.testBit_shiftRight, Nat.testBit_and, Nat.testBit_and, Nat.testBit_shiftRight]
    rw [show (0xff0000 : Nat) = 0xff <<< 16 from rfl, Nat.testBit_shiftLeft]
    simp
  rw [h, and_ff, Nat.shiftRight_eq_div_pow]

theorem and_00ff00_shift (y : Nat) : (y &&& 0x00ff00) >>> 8 = y / 256 % 256 :=
  and_ff00_shift y

theorem lex_lt_cons (a b : Nat) (as bs : List Nat) :
    lex_lt (a :: as) (b :: bs) = true ↔ a < b ∨ (a = b ∧ lex_lt as bs = true) := by
  simp only [lex_lt]
  split_ifs <;> simp_all

theorem lex_lt_nil : lex_lt [] [] = true ↔ False := by
  simp [lex_lt]

theorem date_pack_eq (y m d : Nat) (hy : y ≤ 9999) (hm : m ≤ 12) (hd : d ≤ 31) :
    date_pack y m d = [y / 256, y % 256, m, d] := by
  unfold date_pack
  rw [and_ff00_shift, and_ff]
  have h1 : y / 256 % 256 = y / 256 := by omega
  have h2 : m % 256 = m := by omega
  have h3 : d % 256 = d := by omega
  rw [h1, h2, h3]

theorem time_pack_eq (h m s us : Nat) (hh : h ≤ 23) (hm : m ≤ 59) (hs : s ≤ 59)
    (hus : us ≤ 999999) :
    time_pack h m s us = [h, m, s, us / 65536, us / 256 % 256, us % 256] := by
  unfold time_pack
  rw [and_ff0000_shift, and_00ff00_shift, and_ff]
  have h1 : h % 256 = h := by omega
  have h2 : m % 256 = m := by omega
  have h3 : s % 256 = s := by omega
  have h4 : us / 65536 % 256 = us / 65536 := by omega
  rw [h1, h2, h3, h4]

theorem datetime_pack_eq (y mo d h mi s us : Nat) (hy : y ≤ 9999) (hmo : mo ≤ 12)
    (hd : d ≤ 31) (hh : h ≤ 23) (hmi : mi ≤ 59) (hs : s ≤ 59) (hus : us ≤ 999999) :
    datetime_pack y mo d h mi s us =
      [y / 256, y % 256, mo, d, h, mi, s, us / 65536, us / 256 % 256, us % 256] := by
  unfold datetime_pack
  rw [and_ff00_shift, and_ff0000_shift, and_00ff00_shift, and_ff, and_ff]
  have h1 : y / 256 % 256 = y / 256 := by omega
  have h2 : mo % 256 = mo := by omega
  have h3 : d % 256 = d := by omega
  have h4 : h % 256 = h := by omega
  have h5 : mi % 256 = mi := by omega
  have h6 : s % 256 = s := by omega
  have h7 : us / 65536 % 256 = us / 65536 := by omega
  rw [h1, h2, h3, h4, h5, h6, h7]

/-- C7: for valid field values, the byte-wise lexicographic comparison and
equality over the packed big-endian arrays of `date`, `time` and `datetime`
coincide with lexicographic comparison and equality of the field tuples in
significance order. -/
theorem c7_packed_compare_is_field_lex :
    (∀ y m d y2 m2 d2 : Nat, y ≤ 9999 → m ≤ 12 → d ≤ 31 →
      y2 ≤ 9999 → m2 ≤ 12 → d2 ≤ 31 →
      (lex_lt (date_pack y m d) (date_pack y2 m2 d2) = true ↔
        (y < y2 ∨ (y = y2 ∧ (m < m2 ∨ (m = m2 ∧ d < d2))))) ∧
      (date_pack y m d = date_pack y2 m2 d2 ↔ (y = y2 ∧ m = m2 ∧ d = d2))) ∧
    (∀ h m s us h2 m2 s2 us2 : Nat, h ≤ 23 → m ≤ 59 → s ≤ 59 → us ≤ 999999 →
      h2 ≤ 23 → m2 ≤ 59 → s2 ≤ 59 → us2 ≤ 999999 →
      (lex_lt (time_pack h m s us) (time_pack h2 m2 s2 us2) = true ↔
        (h < h2 ∨ (h = h2 ∧ (m < m2 ∨ (m = m2 ∧ (s < s2 ∨ (s = s2 ∧ us < us2))))))) ∧
      (time_pack h m s us = time_pack h2 m2 s2 us2 ↔
        (h = h2 ∧ m = m2 ∧ s = s2 ∧ us = us2))) ∧
    (∀ y mo d h mi s us y2 mo2 d2 h2 mi2 s2 us2 : Nat,
      y ≤ 9999 → mo ≤ 12 → d ≤ 31 → h ≤ 23 → mi ≤ 59 → s ≤ 59 → us ≤ 999999 →
      y2 ≤ 9999 → mo2 ≤ 12 → d2 ≤ 31 → h2 ≤ 23 → mi2 ≤ 59 → s2 ≤ 59 → us2 ≤ 999999 →
      (lex_lt (datetime_pack y mo d h mi s us) (datetime_pack y2 mo2 d2 h2 mi2 s2 us2) =
          true ↔
        (y < y2 ∨ (y = y2 ∧ (mo < mo2 ∨ (mo = mo2 ∧ (d < d2 ∨ (d = d2 ∧ (h < h2 ∨
          (h = h2 ∧ (mi < mi2 ∨ (mi = mi2 ∧ (s < s2 ∨ (s = s2 ∧ us < us2))))))))))))) ∧
      (datetime_pack y mo d h mi s us = datetime_pack y2 mo2 d2 h2 mi2 s2 us2 ↔
        (y = y2 ∧ mo = mo2 ∧ d = d2 ∧ h = h2 ∧ mi = mi2 ∧ s = s2 ∧ us = us2))) := by
  refine ⟨?_, ?_, ?_⟩
  · intro y m d y2 m2 d2 hy hm hd hy2 hm2 hd2
    rw [date_pack_eq y m d hy hm hd, date_pack_eq y2 m2 d2 hy2 hm2 hd2]
    constructor
    · simp only [lex_lt_cons, lex_lt_nil, and_false, or_false]
      omega
    · simp only [List.cons.injEq, and_true]
      omega
  · intro h m s us h2 m2 s2 us2 hh hm hs hus hh2 hm2 hs2 hus2
    rw [time_pack_eq h m s us hh hm hs hus, time_pack_eq h2 m2 s2 us2 hh2 hm2 hs2 hus2]
    constructor
    · simp only [lex_lt_cons, lex_lt_nil, and_false, or_false]
      omega
    · simp only [List.cons.injEq, and_true]
      omega
  · intro y mo d h mi s us y2 mo2 d2 h2 mi2 s2 us2 hy hmo hd hh hmi hs hus
      hy2 hmo2 hd2 hh2 hmi2 hs2 hus2
    rw [datetime_pack_eq y mo d h mi s us hy hmo hd hh hmi hs hus,
      datetime_pack_eq y2 mo2 d2 h2 mi2 s2 us2 hy2 hmo2 hd2 hh2 hmi2 hs2 hus2]
    constructor
    · simp only [lex_lt_cons, lex_lt_nil, and_false, or_false]
      omega
    · simp only [List.cons.injEq, and_true]
      omega

/-- C7 witness: the theorem applied to the concrete dates `(2021, 8, 31)` and
`(2021, 9, 1)`, times `(1, 2, 3, 4)` and `(1, 2, 3, 5)`, and datetimes built
from them. -/
theorem c7_packed_compare_is_field_lex_witness :
    ((lex_lt (date_pack 2021 8 31) (date_pack 2021 9 1) = true ↔
      (2021 < 2021 ∨ (2021 = 2021 ∧ (8 < 9 ∨ (8 = 9 ∧ 31 < 1))))) ∧
     (date_pack 2021 8 31 = date_pack 2021 9 1 ↔
      (2021 = 2021 ∧ 8 = 9 ∧ 31 = 1))) ∧
    ((lex_lt (time_pack 1 2 3 4) (time_pack 1 2 3 5) = true ↔
      (1 < 1 ∨ (1 = 1 ∧ (2 < 2 ∨ (2 = 2 ∧ (3 < 3 ∨ (3 = 3 ∧ 4 < 5))))))) ∧
     (time_pack 1 2 3 4 = time_pack 1 2 3 5 ↔
      (1 = 1 ∧ 2 = 2 ∧ 3 = 3 ∧ 4 = 5))) :=
  ⟨(c7_packed_compare_is_field_lex.1 2021 8 31 2021 9 1 (by decide) (by decide)
      (by decide) (by decide) (by decide) (by decide)),
   (c7_packed_compare_is_field_lex.2.1 1 2 3 4 1 2 3 5 (by decide) (by decide)
      (by decide) (by decide) (by decide) (by decide) (by decide) (by decide))⟩

/-! ### Claim C8: `datetime::strptime`

`strptime` (datetime.cc:1049-1149) walks the format and input strings in a
`while (*pfmt && *pstr)` loop; after the loop only `*pfmt != 0` is treated
as an error, and on success the parsed fields go through the validating
`datetime` constructor. -/

/-- The seven fields `strptime` accumulates (all initialized to 0). -/
structure ParsedDT where
  year : Int
  month : Int
  day : Int
  hour : Int
  minute : Int
  second : Int
  microsecond : Int
deriving DecidableEq

def pdt0 : ParsedDT := ⟨0, 0, 0, 0, 0, 0, 0⟩

/-- C `isdigit` on the characters that can occur in a Lean `Char`. -/
def is_ascii_digit (c : Char) : Bool := decide ('0' ≤ c ∧ c ≤ '9')

def digit_val (c : Char) : Int := (c.toNat : Int) - 48

/-- The `PARSE_02d` macro (datetime.cc:1061-1067): two digits or fail. -/
def parse02d : List Char → Option (Int × List Char)
  | c0 :: c1 :: rest =>
    if is_ascii_digit c0 && is_ascii_digit c1 then
      some (digit_val c0 * 10 + digit_val c1, rest)
    else none
  | _ => none

/-- The `%Y` case (datetime.cc:1086-1095): four digits or fail. -/
def parse4d : List Char → Option (Int × List Char)
  | c0 :: c1 :: c2 :: c3 :: rest =>
    if is_ascii_digit c0 && is_ascii_digit c1 && is_ascii_digit c2 && is_ascii_digit c3 then
      some (digit_val c0 * 1000 + digit_val c1 * 100 + digit_val c2 * 10 + digit_val c3, rest)
    else none
  | _ => none

/-- The `%f` case (datetime.cc:1111-1123): six digits or fail. -/
def parse6d : List Char → Option (Int × List Char)
  | c0 :: c1 :: c2 :: c3 :: c4 :: c5 :: rest =>
    if is_ascii_digit c0 && is_ascii_digit c1 && is_ascii_digit c2 && is_ascii_digit c3 &&
        is_ascii_digit c4 && is_ascii_digit c5 then
      some (digit_val c0 * 100000 + digit_val c1 * 10000 + digit_val c2 * 1000 +
        digit_val c3 * 100 + digit_val c4 * 10 + digit_val c5, rest)
    else none
  | _ => none

/-- The `while (*pfmt && *pstr)` loop of `strptime` together with the
post-loop `if (*pfmt != 0) goto error;` check: the loop exits as soon as
either string is exhausted; an exhausted format is success (leftover input
characters are not examined), an exhausted input with remaining format is an
error. -/
def strptime_loop : List Char → List Char → ParsedDT → Option ParsedDT
  | [], _, st => some st
  | _ :: _, [], _ => none
  | c :: fmt, s :: str, st =>
    if c ≠ '%' then
      if c = s then strptime_loop fmt str st else none
    else
      match fmt with
      | [] => none
      | dc :: fmt2 =>
        if dc = 'Y' then
          match parse4d (s :: str) with
          | some (v, rest) => strptime_loop fmt2 rest { st with year := v }
          | none => none
        else if dc = 'm' then
          match parse02d (s :: str) with
          | some (v, rest) => strptime_loop fmt2 rest { st with month := v }
          | none => none
        else if dc = 'd' then
          match parse02d (s :: str) with
          | some (v, rest) => strptime_loop fmt2 rest { st with day := v }
          | none => none
        else if dc = 'H' then
          match parse02d (s :: str) with
          | some (v, rest) => strptime_loop fmt2 rest { st with hour := v }
          | none => none
        else if dc = 'M' then
          match parse02d (s :: str) with
          | some (v, rest) => strptime_loop fmt2 rest { st with minute := v }
          | none => none
        else if dc = 'S' then
          match parse02d (s :: str) with
          | some (v, rest) => strptime_loop fmt2 rest { st with second := v }
          | none => none
        else if dc = 'f' then
          match parse6d (s :: str) with
          | some (v, rest) => strptime_loop fmt2 rest { st with microsecond := v }
          | none => none
        else if dc = '%' then
          if s = '%' then strptime_loop fmt2 str st else none
        else none

/-- The validating `datetime` constructor (datetime.cc:1231-1242) applied to
the parsed fields. -/
def mk_datetime (st : ParsedDT) : Option ParsedDT :=
  if date_args_ok st.year st.month st.day ∧
      time_args_ok st.hour st.minute st.second st.microsecond then some st
  else none

/-- Embeds `datetime::strptime(str, fmt)` (datetime.cc:1049-1149); `none` is
the `std::invalid_argument` throw (from the parse loop or from the final
validating constructor). -/
def strptime (str fmt : String) : Option ParsedDT :=
  (strptime_loop fmt.toList str.toList pdt0).bind mk_datetime

/-- C8 counterexample: trailing input characters are not rejected.  With
format `"%Y/%m/%d"` and input `"2021/08/31x"` the format is exhausted while
`"x"` remains unread, yet `strptime` succeeds. -/
theorem c8_trailing_input_counterexample :
    strptime "2021/08/31x" "%Y/%m/%d" =
      some ⟨2021, 8, 31, 0, 0, 0, 0⟩ := by
  rfl

/-- C8 (amended): `strptime` fails on any literal-character mismatch, on any
unsupported format directive (including a trailing `%`), and whenever format
characters remain after the input is exhausted; but unconsumed input
characters remaining after the format is exhausted are accepted and ignored
rather than rejected. -/
theorem c8_strptime_error_behaviour :
    (∀ (c s : Char) (fmt str : List Char) (st : ParsedDT), c ≠ '%' → c ≠ s →
      strptime_loop (c :: fmt) (s :: str) st = none) ∧
    (∀ (dc s : Char) (fmt str : List Char) (st : ParsedDT),
      dc ∉ (['Y', 'm', 'd', 'H', 'M', 'S', 'f', '%'] : List Char) →
      strptime_loop ('%' :: dc :: fmt) (s :: str) st = none) ∧
    (∀ (s : Char) (str : List Char) (st : ParsedDT),
      strptime_loop ['%'] (s :: str) st = none) ∧
    (∀ (fmt str : List Char) (st : ParsedDT), fmt ≠ [] → str = [] →
      strptime_loop fmt str st = none) ∧
    (∀ (str : List Char) (st : ParsedDT), strptime_loop [] str st = some st) := by
  refine ⟨?_, ?_, ?_, ?_, ?_⟩
  · intro c s fmt str st hc hcs
    rw [strptime_loop.eq_def]
    simp [hc, hcs]
  · intro dc s fmt str st hdc
    simp only [List.mem_cons, List.mem_singleton] at hdc
    push_neg at hdc
    obtain ⟨h1, h2, h3, h4, h5, h6, h7, h8⟩ := hdc
    rw [strptime_loop.eq_def]
    simp [h1, h2, h3, h4, h5, h6, h7, h8]
  · intro s str st
    rw [strptime_loop.eq_def]
    simp
  · intro fmt str st hfmt hstr
    subst hstr
    match fmt with
    | f :: fmt2 => rfl
  · intro str st
    rfl

/-- C8 witness: the amended theorem applied at concrete inputs: a literal
mismatch, an unsupported directive `%Q`, a bare trailing `%`, leftover
format on exhausted input, and leftover input on exhausted format. -/
theorem c8_strptime_error_behaviour_witness :
    strptime_loop ['a'] ['b'] pdt0 = none ∧
    strptime_loop ['%', 'Q'] ['5'] pdt0 = none ∧
    strptime_loop ['%'] ['5'] pdt0 = none ∧
    strptime_loop ['%', 'd'] [] pdt0 = none ∧
    strptime_loop [] ['z'] pdt0 = some pdt0 :=
  ⟨c8_strptime_error_behaviour.1 'a' 'b' [] [] pdt0 (by decide) (by decide),
   c8_strptime_error_behaviour.2.1 'Q' '5' [] [] pdt0 (by decide),
   c8_strptime_error_behaviour.2.2.1 '5' [] pdt0,
   c8_strptime_error_behaviour.2.2.2.1 ['%', 'd'] [] pdt0 (by decide) rfl,
   c8_strptime_error_behaviour.2.2.2.2 ['z'] pdt0⟩

/-! ### Claim C1: `timedelta::operator/(int)` -/

/-- C1: the code divides the total-microsecond value by `kUsPerSecond`
(1,000,000) instead of by `n`: `timedelta(0,10,0) / 2` evaluates to
`timedelta(0,0,10)` rather than the claimed `timedelta(0,5,0)`; the
`n == 0` domain-error branch does behave as claimed. -/
theorem c1_div_int_bug_eval :
    timedelta_div_int ⟨0, 10, 0⟩ 2 = .ok ⟨0, 0, 10⟩ ∧
    timedelta_div_int ⟨0, 10, 0⟩ 5 = .ok ⟨0, 0, 10⟩ ∧
    timedelta_div_int ⟨0, 10, 0⟩ 0 = .error .domainError := by
  refine ⟨rfl, rfl, rfl⟩

/-! ### Claim C3: `timedelta::operator%` -/

/-- C3: `timedelta::operator%` performs no zero check: with a zero divisor
it reaches `mod`'s division by zero (violating `mod`'s `assert(y > 0)`)
instead of raising the claimed domain error; on the claim's positive
example `timedelta(0,10,0) % timedelta(0,3,0)` it does return
`timedelta(0,1,0)`. -/
theorem c3_mod_zero_bug_eval :
    timedelta_mod_td ⟨0, 10, 0⟩ ⟨0, 0, 0⟩ = .error .assertFail ∧
    timedelta_mod_td ⟨0, 10, 0⟩ ⟨0, 3, 0⟩ = .ok ⟨0, 1, 0⟩ := by
  refine ⟨rfl, rfl⟩

/-! ### Claim C9: `timedelta::repr` -/

/-- C9: in the `microseconds == 0 && seconds != 0` branch the code formats
`seconds(), microseconds()` instead of the claimed `days(), seconds()`:
`timedelta(3,10,0).repr()` evaluates to `"timedelta(10, 0)"`, not
`"timedelta(3, 10)"`; the other two branches behave as claimed. -/
theorem c9_repr_bug_eval :
    timedelta_repr ⟨3, 10, 0⟩ = "timedelta(10, 0)" ∧
    timedelta_repr ⟨3, 10, 5⟩ = "timedelta(3, 10, 5)" ∧
    timedelta_repr ⟨3, 0, 0⟩ = "timedelta(3)" := by
  refine ⟨rfl, rfl, rfl⟩

/-! ### Claim C10: `timedelta::max()` -/

/-- C10 counterexample: `timedelta::max()` does not evaluate to
`(999999999, 86399, 99999)` — the `std::chrono` conversion of 999,999,999
days to an `int64_t` microsecond count overflows and wraps. -/
theorem c10_max_counterexample :
    timedelta_max ≠ .ok ⟨999999999, 86399, 99999⟩ := by
  intro h
  exact absurd (congrArg (fun e => match e with
    | .ok t => t.seconds
    | .error _ => 0) h) (by decide)

/-- C10 (amended): on the two's-complement evaluation of the overflowing
`std::chrono` sum, `timedelta::max()` evaluates to the normalized triple
`(-67519912, 28251, 341919)` (the triple `(999999999, 86399, 99999)` is the
value the defining expression would take without the `int64_t` overflow);
and it is not the greatest representable value: `timedelta(999999999, 86399,
999999)` is constructible through the normalizing constructor, satisfies the
normalization and day-range invariants, and is strictly greater than
`timedelta::max()` in the defaulted lexicographic order. -/
theorem c10_max_not_greatest :
    timedelta_max = .ok ⟨-67519912, 28251, 341919⟩ ∧
    timedelta_ctor3 999999999 86399 999999 = .ok ⟨999999999, 86399, 999999⟩ ∧
    (0 ≤ (86399 : Int) ∧ (86399 : Int) < 86400 ∧ 0 ≤ (999999 : Int) ∧
      (999999 : Int) < 1000000 ∧ (999999999 : Int) ≤ kMaxDeltaDays) ∧
    timedelta_lt ⟨-67519912, 28251, 341919⟩ ⟨999999999, 86399, 999999⟩ = true := by
  refine ⟨rfl, rfl, by decide, by decide⟩

/-! ### ISO calendar round-trip (claim C5) -/

theorem o1_eq (y : Int) : ymd_to_ord y 1 1 = days_before_year y + 1 := by
  simp [ymd_to_ord, days_before_month, kDaysBeforeMonth]

theorem weekday_eq_jan1 (y : Int) : weekday y 1 1 = (days_before_year y + 7) % 7 := by
  simp only [weekday, o1_eq]
  congr 1
  ring

theorem w1m_eq (y : Int) :
    iso_week1_monday y =
      days_before_year y + 1 - (days_before_year y + 7) % 7 +
        (if (days_before_year y + 7) % 7 > 3 then 7 else 0) := by
  simp only [iso_week1_monday, o1_eq]
  rw [show days_before_year y + 1 + 6 = days_before_year y + 7 from by ring]
  split_ifs <;> ring

/-- The Monday of ISO week 1 of year `y + 1` is 364 days after that of year
`y`, or 371 days when ISO year `y` has 53 weeks (Jan 1 of `y` a Thursday, or
a Wednesday in a leap year). -/
theorem w1m_step (y : Int) (hy : 1 ≤ y) :
    iso_week1_monday (y + 1) =
      iso_week1_monday y + 364 +
        (if (days_before_year y + 7) % 7 = 3 ∨
            ((days_before_year y + 7) % 7 = 2 ∧ is_leap y = true) then 7 else 0) := by
  have hs := dby_step y hy
  rw [w1m_eq y, w1m_eq (y + 1), hs]
  rcases Bool.eq_false_or_eq_true (is_leap y) with hL | hL <;>
    rw [hL] at hs ⊢ <;> norm_num at hs ⊢ <;> split_ifs <;> omega

theorem dby10000 : days_before_year 10000 = 3652059 := by decide

theorem w1m1 : iso_week1_monday 1 = 1 := by decide

theorem w1m10000 : iso_week1_monday 10000 = 3652062 := by decide

/-- Evaluation of `fromisocalendar` when its three argument checks pass:
the result is the date of ordinal
`iso_week1_monday iy + ((iw - 1) * 7 + iwd - 1)`, subject to the final
validating constructor. -/
theorem fromiso_eval (iy iw iwd : Int) (h1 : 1 ≤ iy) (h2 : iy ≤ 9999)
    (hw : ¬((iw ≤ 0 ∨ iw ≥ 53) ∧
      ¬(iw = 53 ∧ (weekday iy 1 1 = 3 ∨ (weekday iy 1 1 = 2 ∧ is_leap iy = true)))))
    (hwd1 : 1 ≤ iwd) (hwd7 : iwd ≤ 7) :
    fromisocalendar iy iw iwd =
      if date_args_ok (ord_to_ymd (iso_week1_monday iy + ((iw - 1) * 7 + iwd - 1))).1
          (ord_to_ymd (iso_week1_monday iy + ((iw - 1) * 7 + iwd - 1))).2.1
          (ord_to_ymd (iso_week1_monday iy + ((iw - 1) * 7 + iwd - 1))).2.2
      then .ok (ord_to_ymd (iso_week1_monday iy + ((iw - 1) * 7 + iwd - 1)))
      else .error .range := by
  simp only [fromisocalendar, kMinYear, kMaxYear]
  rw [if_neg (by omega : ¬(iy < 1 ∨ iy > 9999)), if_neg hw,
    if_neg (by omega : ¬(iwd ≤ 0 ∨ iwd ≥ 8))]

/-- Direction 1 of C5: `fromisocalendar` inverts `isocalendar` on every
valid date. -/
theorem fromiso_iso (y m d : Int) (hv : date_args_ok y m d) :
    fromisocalendar (isocalendar y m d).1 (isocalendar y m d).2.1
      (isocalendar y m d).2.2 = .ok (y, m, d) := by
  simp only [date_args_ok, kMinYear, kMaxYear] at hv
  obtain ⟨hy1, hy2, hm1, hm2, hd1, hd2⟩ := hv
  have hb := ymd_to_ord_bounds y m d hy1 hm1 hm2 hd1 hd2
  have hnn := dby_nonneg y hy1
  have hsy := dby_step y hy1
  have hwy := w1m_eq y
  have hwsy := w1m_step y hy1
  simp only [isocalendar]
  rw [divmod_eq (ymd_to_ord y m d - iso_week1_monday y) 7 (by norm_num)]
  by_cases hA : (ymd_to_ord y m d - iso_week1_monday y) / 7 < 0
  · rw [if_pos (by simpa using hA)]
    have hy2' : 2 ≤ y := by
      rcases (show y = 1 ∨ 2 ≤ y from by omega) with h1 | h2
      · exfalso
        rw [h1] at hA hb
        rw [w1m1] at hA
        have h1v : days_before_year 1 = 0 := by decide
        omega
      · exact h2
    have hsy1 := dby_step (y - 1) (by omega)
    rw [show y - 1 + 1 = y from by ring] at hsy1
    have hwy1 := w1m_eq (y - 1)
    have hwsy1 := w1m_step (y - 1) (by omega)
    rw [show y - 1 + 1 = y from by ring] at hwsy1
    rw [divmod_eq (ymd_to_ord y m d - iso_week1_monday (y - 1)) 7 (by norm_num)]
    have hsy1' : days_before_year (y - 1) + 365 ≤ days_before_year y ∧
        days_before_year y ≤ days_before_year (y - 1) + 366 := by
      rcases Bool.eq_false_or_eq_true (is_leap (y - 1)) with hL1 | hL1 <;>
        rw [hL1] at hsy1 <;> norm_num at hsy1 <;> omega
    have hwy1' : days_before_year (y - 1) - 2 ≤ iso_week1_monday (y - 1) ∧
        iso_week1_monday (y - 1) ≤ days_before_year (y - 1) + 4 := by
      split_ifs at hwy1 <;> omega
    have hwc : ¬(((ymd_to_ord y m d - iso_week1_monday (y - 1)) / 7 + 1 ≤ 0 ∨
          (ymd_to_ord y m d - iso_week1_monday (y - 1)) / 7 + 1 ≥ 53) ∧
        ¬((ymd_to_ord y m d - iso_week1_monday (y - 1)) / 7 + 1 = 53 ∧
          (weekday (y - 1) 1 1 = 3 ∨
            (weekday (y - 1) 1 1 = 2 ∧ is_leap (y - 1) = true)))) := by
      rw [weekday_eq_jan1]
      by_cases hC : (days_before_year (y - 1) + 7) % 7 = 3 ∨
          ((days_before_year (y - 1) + 7) % 7 = 2 ∧ is_leap (y - 1) = true)
      · rw [if_pos hC] at hwsy1
        rintro ⟨ha, hcn⟩
        rcases hC with h3 | ⟨h2c, hL⟩
        · exact hcn ⟨by omega, Or.inl h3⟩
        · exact hcn ⟨by omega, Or.inr ⟨h2c, hL⟩⟩
      · rw [if_neg hC] at hwsy1
        rintro ⟨ha, _⟩
        omega
    show fromisocalendar (y - 1) ((ymd_to_ord y m d - iso_week1_monday (y - 1)) / 7 + 1)
        ((ymd_to_ord y m d - iso_week1_monday (y - 1)) % 7 + 1) = .ok (y, m, d)
    rw [fromiso_eval (y - 1) ((ymd_to_ord y m d - iso_week1_monday (y - 1)) / 7 + 1)
      ((ymd_to_ord y m d - iso_week1_monday (y - 1)) % 7 + 1)
      (by omega) (by omega) hwc (by omega) (by omega)]
    rw [show iso_week1_monday (y - 1) +
        (((ymd_to_ord y m d - iso_week1_monday (y - 1)) / 7 + 1 - 1) * 7 +
          ((ymd_to_ord y m d - iso_week1_monday (y - 1)) % 7 + 1) - 1) =
        ymd_to_ord y m d from by omega]
    rw [ord_to_ymd_ymd_to_ord y m d hy1 hm1 hm2 hd1 hd2]
    rw [if_pos]
    simp only [date_args_ok, kMinYear, kMaxYear]
    exact ⟨hy1, hy2, hm1, hm2, hd1, hd2⟩
  · rw [if_neg (by simpa using hA)]
    by_cases hB : (ymd_to_ord y m d - iso_week1_monday y) / 7 ≥ 52 ∧
        ymd_to_ord y m d ≥ iso_week1_monday (y + 1)
    · rw [if_pos (by simpa using hB)]
      obtain ⟨hB1, hB2⟩ := hB
      have hy9 : y ≤ 9998 := by
        rcases (show y = 9999 ∨ y ≤ 9998 from by omega) with h | h
        · exfalso
          rw [h] at hB2 hb
          norm_num at hB2 hb
          rw [w1m10000] at hB2
          rw [dby10000] at hb
          omega
        · exact h
      have hwc : ¬(((0 : Int) + 1 ≤ 0 ∨ (0 : Int) + 1 ≥ 53) ∧
          ¬((0 : Int) + 1 = 53 ∧ (weekday (y + 1) 1 1 = 3 ∨
            (weekday (y + 1) 1 1 = 2 ∧ is_leap (y + 1) = true)))) := by
        rintro ⟨ha, _⟩
        omega
      show fromisocalendar (y + 1) (0 + 1)
          ((ymd_to_ord y m d - iso_week1_monday y) % 7 + 1) = .ok (y, m, d)
      rw [fromiso_eval (y + 1) (0 + 1) ((ymd_to_ord y m d - iso_week1_monday y) % 7 + 1)
        (by omega) (by omega) hwc (by omega) (by omega)]
      rw [show iso_week1_monday (y + 1) +
          (((0 : Int) + 1 - 1) * 7 + ((ymd_to_ord y m d - iso_week1_monday y) % 7 + 1) - 1) =
          ymd_to_ord y m d from by
        have hwy' := w1m_eq (y + 1)
        by_cases hC : (days_before_year y + 7) % 7 = 3 ∨
            ((days_before_year y + 7) % 7 = 2 ∧ is_leap y = true)
        · rw [if_pos hC] at hwsy
          split_ifs at hwy' <;> omega
        · rw [if_neg hC] at hwsy
          split_ifs at hwy' <;> omega]
      rw [ord_to_ymd_ymd_to_ord y m d hy1 hm1 hm2 hd1 hd2]
      rw [if_pos]
      simp only [date_args_ok, kMinYear, kMaxYear]
      exact ⟨hy1, hy2, hm1, hm2, hd1, hd2⟩
    · rw [if_neg (by simpa using hB)]
      have hwc : ¬(((ymd_to_ord y m d - iso_week1_monday y) / 7 + 1 ≤ 0 ∨
            (ymd_to_ord y m d - iso_week1_monday y) / 7 + 1 ≥ 53) ∧
          ¬((ymd_to_ord y m d - iso_week1_monday y) / 7 + 1 = 53 ∧
            (weekday y 1 1 = 3 ∨ (weekday y 1 1 = 2 ∧ is_leap y = true)))) := by
        rw [weekday_eq_jan1]
        by_cases hC : (days_before_year y + 7) % 7 = 3 ∨
            ((days_before_year y + 7) % 7 = 2 ∧ is_leap y = true)
        · rw [if_pos hC] at hwsy
          rintro ⟨ha, hcn⟩
          rcases hC with h3 | ⟨h2c, hL⟩
          · exact hcn ⟨by omega, Or.inl h3⟩
          · exact hcn ⟨by omega, Or.inr ⟨h2c, hL⟩⟩
        · rw [if_neg hC] at hwsy
          rintro ⟨ha, _⟩
          omega
      show fromisocalendar y ((ymd_to_ord y m d - iso_week1_monday y) / 7 + 1)
          ((ymd_to_ord y m d - iso_week1_monday y) % 7 + 1) = .ok (y, m, d)
      rw [fromiso_eval y ((ymd_to_ord y m d - iso_week1_monday y) / 7 + 1)
        ((ymd_to_ord y m d - iso_week1_monday y) % 7 + 1)
        (by omega) (by omega) hwc (by omega) (by omega)]
      rw [show iso_week1_monday y +
          (((ymd_to_ord y m d - iso_week1_monday y) / 7 + 1 - 1) * 7 +
            ((ymd_to_ord y m d - iso_week1_monday y) % 7 + 1) - 1) =
          ymd_to_ord y m d from by omega]
      rw [ord_to_ymd_ymd_to_ord y m d hy1 hm1 hm2 hd1 hd2]
      rw [if_pos]
      simp only [date_args_ok, kMinYear, kMaxYear]
      exact ⟨hy1, hy2, hm1, hm2, hd1, hd2⟩
theorem dby_step_bounds (a : Int) (ha : 1 ≤ a) :
    days_before_year a + 365 ≤ days_before_year (a + 1) ∧
      days_before_year (a + 1) ≤ days_before_year a + 366 := by
  have h := dby_step a ha
  rcases Bool.eq_false_or_eq_true (is_leap a) with hL | hL <;>
    rw [hL] at h <;> norm_num at h <;> omega

theorem w1m_bounds (a : Int) :
    days_before_year a - 2 ≤ iso_week1_monday a ∧
      iso_week1_monday a ≤ days_before_year a + 4 := by
  have h := w1m_eq a
  split_ifs at h <;> omega

theorem w1m_step_bounds (a : Int) (ha : 1 ≤ a) :
    iso_week1_monday a + 364 ≤ iso_week1_monday (a + 1) ∧
      iso_week1_monday (a + 1) ≤ iso_week1_monday a + 371 := by
  have h := w1m_step a ha
  split_ifs at h <;> omega

/-- Direction 2 of C5 (amended): whenever `fromisocalendar` succeeds,
`isocalendar` recovers the argument triple. -/
theorem iso_fromiso (iy iw iwd y m d : Int)
    (hok : fromisocalendar iy iw iwd = .ok (y, m, d)) :
    isocalendar y m d = (iy, iw, iwd) := by
  simp only [fromisocalendar, kMinYear, kMaxYear] at hok
  by_cases h1 : iy < 1 ∨ iy > 9999
  · rw [if_pos h1] at hok
    exact Except.noConfusion hok
  rw [if_neg h1] at hok
  by_cases h2 : (iw ≤ 0 ∨ iw ≥ 53) ∧
      ¬(iw = 53 ∧ (weekday iy 1 1 = 3 ∨ (weekday iy 1 1 = 2 ∧ is_leap iy = true)))
  · rw [if_pos h2] at hok
    exact Except.noConfusion hok
  rw [if_neg h2] at hok
  by_cases h3 : iwd ≤ 0 ∨ iwd ≥ 8
  · rw [if_pos h3] at hok
    exact Except.noConfusion hok
  rw [if_neg h3] at hok
  by_cases h4 : date_args_ok
      (ord_to_ymd (iso_week1_monday iy + ((iw - 1) * 7 + iwd - 1))).1
      (ord_to_ymd (iso_week1_monday iy + ((iw - 1) * 7 + iwd - 1))).2.1
      (ord_to_ymd (iso_week1_monday iy + ((iw - 1) * 7 + iwd - 1))).2.2
  swap
  · rw [if_neg h4] at hok
    exact Except.noConfusion hok
  rw [if_pos h4] at hok
  simp only [Except.ok.injEq] at hok
  have hacc : (1 ≤ iw ∧ iw ≤ 52) ∨
      (iw = 53 ∧ (weekday iy 1 1 = 3 ∨ (weekday iy 1 1 = 2 ∧ is_leap iy = true))) := by
    by_cases hC : iw = 53 ∧ (weekday iy 1 1 = 3 ∨ (weekday iy 1 1 = 2 ∧ is_leap iy = true))
    · exact Or.inr hC
    · left
      refine ⟨?_, ?_⟩
      · by_contra hcc
        exact h2 ⟨Or.inl (by omega), hC⟩
      · by_contra hcc
        exact h2 ⟨Or.inr (by omega), hC⟩
  have hiw1 : 1 ≤ iw := by
    rcases hacc with ⟨h, _⟩ | ⟨h, _⟩ <;> omega
  have hiw53 : iw ≤ 53 := by
    rcases hacc with ⟨_, h⟩ | ⟨h, _⟩ <;> omega
  have hO1 : 1 ≤ iso_week1_monday iy + ((iw - 1) * 7 + iwd - 1) := by
    rcases (show iy = 1 ∨ 2 ≤ iy from by omega) with h | h
    · rw [h, w1m1]
      omega
    · have hm2 := dby_mono 2 iy (by norm_num) h
      have h2v : days_before_year 2 = 365 := by decide
      have hw := w1m_bounds iy
      omega
  have hargs : date_args_ok y m d := by
    rw [hok] at h4
    exact h4
  have hL : ymd_to_ord y m d = iso_week1_monday iy + ((iw - 1) * 7 + iwd - 1) := by
    have h := ymd_to_ord_ord_to_ymd (iso_week1_monday iy + ((iw - 1) * 7 + iwd - 1)) hO1
    rw [hok] at h
    exact h
  simp only [date_args_ok, kMinYear, kMaxYear] at hargs
  obtain ⟨hy1, hy2, hm1, hm2, hd1, hd2⟩ := hargs
  have hb := ymd_to_ord_bounds y m d hy1 hm1 hm2 hd1 hd2
  rw [hL] at hb
  have hwiy := w1m_bounds iy
  have hycase : y = iy - 1 ∨ y = iy ∨ y = iy + 1 := by
    by_contra hcon
    push_neg at hcon
    rcases (show y ≤ iy - 2 ∨ iy + 2 ≤ y from by omega) with hlt | hgt
    · have hs := dby_step_bounds (iy - 1) (by omega)
      rw [show iy - 1 + 1 = iy from by ring] at hs
      have hmo := dby_mono (y + 1) (iy - 1) (by omega) (by omega)
      omega
    · have hs := dby_step_bounds (iy + 1) (by omega)
      rw [show iy + 1 + 1 = iy + 2 from by ring] at hs
      have hs2 := dby_step_bounds iy (by omega)
      have hmo := dby_mono (iy + 2) y (by omega) hgt
      omega
  simp only [isocalendar]
  rw [hL]
  rcases hycase with hyc | hyc | hyc
  · -- the date lies at the start of January, in the last ISO week of year iy
    rw [hyc] at hb ⊢
    rw [show iy - 1 + 1 = iy from by ring] at hb ⊢
    have hwsb := w1m_step_bounds (iy - 1) (by omega)
    rw [show iy - 1 + 1 = iy from by ring] at hwsb
    rw [divmod_eq (iso_week1_monday iy + ((iw - 1) * 7 + iwd - 1) -
      iso_week1_monday (iy - 1)) 7 (by norm_num)]
    have hnneg : ¬((iso_week1_monday iy + ((iw - 1) * 7 + iwd - 1) -
        iso_week1_monday (iy - 1)) / 7 < 0) := by omega
    rw [if_neg (by simpa using hnneg)]
    have hcnd : (iso_week1_monday iy + ((iw - 1) * 7 + iwd - 1) -
        iso_week1_monday (iy - 1)) / 7 ≥ 52 ∧
        iso_week1_monday iy + ((iw - 1) * 7 + iwd - 1) ≥ iso_week1_monday iy := by
      refine ⟨by omega, by omega⟩
    rw [if_pos (by simpa using hcnd)]
    have hws1 := w1m_step (iy - 1) (by omega)
    rw [show iy - 1 + 1 = iy from by ring] at hws1
    simp only [Prod.mk.injEq]
    refine ⟨trivial, by omega, ?_⟩
    split_ifs at hws1 <;> omega
  · -- the date lies inside its own ISO year
    rw [hyc] at hb ⊢
    rw [divmod_eq (iso_week1_monday iy + ((iw - 1) * 7 + iwd - 1) -
      iso_week1_monday iy) 7 (by norm_num)]
    have hnneg : ¬((iso_week1_monday iy + ((iw - 1) * 7 + iwd - 1) -
        iso_week1_monday iy) / 7 < 0) := by omega
    rw [if_neg (by simpa using hnneg)]
    rcases hacc with ⟨hiwl, hiwu⟩ | ⟨h53, hcond⟩
    · have hnb : ¬((iso_week1_monday iy + ((iw - 1) * 7 + iwd - 1) -
          iso_week1_monday iy) / 7 ≥ 52 ∧
          iso_week1_monday iy + ((iw - 1) * 7 + iwd - 1) ≥ iso_week1_monday (iy + 1)) := by
        omega
      rw [if_neg (by simpa using hnb)]
      simp only [Prod.mk.injEq]
      refine ⟨trivial, by omega, by omega⟩
    · rw [weekday_eq_jan1] at hcond
      have hws := w1m_step iy (by omega)
      rw [if_pos hcond] at hws
      have hnb : ¬((iso_week1_monday iy + ((iw - 1) * 7 + iwd - 1) -
          iso_week1_monday iy) / 7 ≥ 52 ∧
          iso_week1_monday iy + ((iw - 1) * 7 + iwd - 1) ≥ iso_week1_monday (iy + 1)) := by
        omega
      rw [if_neg (by simpa using hnb)]
      simp only [Prod.mk.injEq]
      refine ⟨trivial, by omega, by omega⟩
  · -- the date lies at the end of December, in ISO week 1 of year iy + 1
    rw [hyc] at hb ⊢
    rw [show iy + 1 - 1 = iy from by ring]
    have hlt : iso_week1_monday iy + ((iw - 1) * 7 + iwd - 1) <
        iso_week1_monday (iy + 1) := by
      rcases hacc with ⟨hiwl, hiwu⟩ | ⟨h53, hcond⟩
      · have hwsb := w1m_step_bounds iy (by omega)
        omega
      · rw [weekday_eq_jan1] at hcond
        have hws := w1m_step iy (by omega)
        rw [if_pos hcond] at hws
        omega
    rw [divmod_eq (iso_week1_monday iy + ((iw - 1) * 7 + iwd - 1) -
      iso_week1_monday (iy + 1)) 7 (by norm_num)]
    have hpos : (iso_week1_monday iy + ((iw - 1) * 7 + iwd - 1) -
        iso_week1_monday (iy + 1)) / 7 < 0 := by omega
    rw [if_pos (by simpa using hpos)]
    rw [divmod_eq (iso_week1_monday iy + ((iw - 1) * 7 + iwd - 1) -
      iso_week1_monday iy) 7 (by norm_num)]
    simp only [Prod.mk.injEq]
    refine ⟨trivial, by omega, by omega⟩
/-- Counterexample to the unamended C5: the triple (9999, 52, 6) satisfies
every acceptance criterion the claim states for `fromisocalendar` inputs
(year in [1,9999], week 52 — always allowed, weekday in [1,7]), yet
`fromisocalendar` fails with a range error, because the addressed day
(ordinal 3,652,060) falls beyond `date::max()`. -/
theorem c5_fromisocalendar_counterexample :
    fromisocalendar 9999 52 6 = .error .range := by rfl

/-- **C5** (corrected). `fromisocalendar` inverts `isocalendar` on every
valid date, and `isocalendar` inverts `fromisocalendar` on every input
triple on which `fromisocalendar` succeeds; but — contrary to the claim —
not every accepted triple yields a date: (9999, 52, 6) passes all of
`fromisocalendar`'s week-form checks and still fails with a range error. -/
theorem c5_isocalendar_fromisocalendar :
    (∀ y m d : Int, date_args_ok y m d →
      fromisocalendar (isocalendar y m d).1 (isocalendar y m d).2.1
        (isocalendar y m d).2.2 = .ok (y, m, d)) ∧
    (∀ iy iw iwd y m d : Int, fromisocalendar iy iw iwd = .ok (y, m, d) →
      isocalendar y m d = (iy, iw, iwd)) ∧
    fromisocalendar 9999 52 6 = .error .range :=
  ⟨fun y m d hv => fromiso_iso y m d hv,
   fun iy iw iwd y m d hok => iso_fromiso iy iw iwd y m d hok,
   by rfl⟩

theorem c5_isocalendar_fromisocalendar_witness :
    fromisocalendar (isocalendar 2021 8 31).1 (isocalendar 2021 8 31).2.1
      (isocalendar 2021 8 31).2.2 = .ok (2021, 8, 31) ∧
    isocalendar 2004 1 1 = (2004, 1, 4) :=
  ⟨c5_isocalendar_fromisocalendar.1 2021 8 31 (by decide),
   c5_isocalendar_fromisocalendar.2.1 2004 1 4 2004 1 1 (by rfl)⟩
end DT
